import Mathlib

/-!
Verification development for the jaff template-expansion engine and the two
C++ sources shipped with it (the microphysics template
`actual_network_data.cpp` and the test harness `test_chemistry.cpp`).

The template-expansion engine itself is not part of the visible sources;
its behaviour is modelled here from the specification (directive grammar,
scoped substitution, list-driven reduction, error kinds).  The template and
the test program are embedded from their sources.
-/

namespace Jaff

/-- Text is modelled as a list of characters, so that splitting and joining
are fully computable and byte-faithful. -/
abbrev Str := List Char

/-- Modelled from the spec: a Symbol Table scalar value (int or string);
the symbol-table loader is not among the visible sources. -/
inductive Value where
  | int (n : Int)
  | str (s : Str)
  deriving DecidableEq

/-- Modelled from the spec: a Symbol Table entry, either a scalar or an
ordered list of scalars. -/
inductive Entry where
  | scalar (v : Value)
  | list (vs : List Value)
  deriving DecidableEq

/-- Modelled from the spec: the read-only Symbol Table, a name-to-entry map. -/
abbrev SymTab := List (Str × Entry)

/-- First-match association lookup in the Symbol Table. -/
def lookupSym : SymTab → Str → Option Entry
  | [], _ => none
  | (k, e) :: rest, n => if k = n then some e else lookupSym rest n

/-- Textual representation of a scalar, as substituted into generated text. -/
def renderValue : Value → Str
  | .int n => if n < 0 then '-' :: Nat.toDigits 10 n.natAbs else Nat.toDigits 10 n.natAbs
  | .str s => s

/-- Modelled from the spec: the six fatal error kinds of the engine. -/
inductive ErrKind where
  | unterminatedDirective
  | unknownDirective
  | arityMismatch
  | undefinedSymbol
  | unresolvedPlaceholder
  | typeMismatch
  deriving DecidableEq

/-- Modelled from the spec: a structured failure carrying the template
location (line number) at which it occurred. -/
structure Err where
  kind : ErrKind
  line : Nat
  deriving DecidableEq

/- ### String utilities -/

/-- Test whether the first argument is an initial segment of the second. -/
def leadsWith : Str → Str → Bool
  | [], _ => true
  | _ :: _, [] => false
  | a :: p, b :: t => a == b && leadsWith p t

/-- Whitespace characters trimmed around directive header text. -/
def isWs (c : Char) : Bool := c == ' ' || c == '\t' || c == '\n' || c == '\r'

/-- Drop leading whitespace. -/
def trimLeft (s : Str) : Str := s.dropWhile isWs

/-- Drop trailing whitespace. -/
def trimRight (s : Str) : Str := (s.reverse.dropWhile isWs).reverse

/-- Trim whitespace on both ends. -/
def trim (s : Str) : Str := trimLeft (trimRight s)

/-- Split a text into lines, each line keeping its terminating newline
character (the final line may lack one).  The accumulator holds the current
line reversed. -/
def splitLinesAux : Str → Str → List Str
  | [], acc => if acc = [] then [] else [acc.reverse]
  | c :: cs, acc =>
    if c = '\n' then (acc.reverse ++ ['\n']) :: splitLinesAux cs []
    else splitLinesAux cs (c :: acc)

/-- Split a template text into newline-terminated lines. -/
def splitLines (s : Str) : List Str := splitLinesAux s []

/-- Concatenate a list of text fragments. -/
def concatAll : List Str → Str
  | [] => []
  | s :: rest => s ++ concatAll rest

/-- Split on commas (a comma never occurs inside a name), trimming each part. -/
def splitCommaAux : Str → Str → List Str
  | [], acc => [acc.reverse]
  | c :: cs, acc =>
    if c = ',' then acc.reverse :: splitCommaAux cs []
    else splitCommaAux cs (c :: acc)

/-- Comma-separated name list of a directive header. -/
def splitComma (s : Str) : List Str := (splitCommaAux s []).map trim

/-- Count the positions of a text at which a pattern occurs. -/
def countOcc (pat : Str) : Str → Nat
  | [] => 0
  | c :: cs => (if leadsWith pat (c :: cs) then 1 else 0) + countOcc pat cs

/- ### Directive parser (modelled from the spec) -/

/-- The sentinel prefix announcing a directive marker line. -/
def markerSig : Str := ['$', 'J', 'A', 'F', 'F', ' ']

/-- The `SUB ` keyword of a directive header. -/
def subSig : Str := ['S', 'U', 'B', ' ']

/-- The `REDUCE ` keyword of a directive header. -/
def reduceSig : Str := ['R', 'E', 'D', 'U', 'C', 'E', ' ']

/-- The `END` keyword of a directive header. -/
def endSig : Str := ['E', 'N', 'D']

/-- The ` IN ` separator between binding names and source-list names. -/
def inSig : Str := [' ', 'I', 'N', ' ']

/-- Modelled from the spec: scan a line for the `$JAFF ` sentinel; when
present, return the directive header text following it. -/
def findMarker : Str → Option Str
  | [] => none
  | c :: cs =>
    if leadsWith markerSig (c :: cs) then some ((c :: cs).drop markerSig.length)
    else findMarker cs

/-- Split header text at the first ` IN ` separator. -/
def splitINAux : Str → Option (Str × Str)
  | [] => none
  | c :: cs =>
    if leadsWith inSig (c :: cs) then some ([], (c :: cs).drop inSig.length)
    else
      match splitINAux cs with
      | some p => some (c :: p.1, p.2)
      | none => none

/-- The two directive kinds. -/
inductive DirKind where
  | sub
  | reduce
  deriving DecidableEq

/-- A parsed directive header. -/
inductive Header where
  | subH (name : Str)
  | reduceH (bindings sources : List Str)
  | endH
  deriving DecidableEq

/-- Modelled from the spec: parse the text after the sentinel into a
directive header.  Keywords are case-sensitive literals; a binding/source
count mismatch in `REDUCE` is a parse-time `ArityMismatch`; any other
keyword is `UnknownDirective`. -/
def parseHeader (t0 : Str) (line : Nat) : Except Err Header :=
  if trim t0 = endSig then .ok .endH
  else if leadsWith subSig (trim t0) then
    .ok (.subH (trim ((trim t0).drop subSig.length)))
  else if leadsWith reduceSig (trim t0) then
    match splitINAux ((trim t0).drop reduceSig.length) with
    | some p =>
      if (splitComma p.1).length = (splitComma p.2).length then
        .ok (.reduceH (splitComma p.1) (splitComma p.2))
      else .error ⟨.arityMismatch, line⟩
    | none => .error ⟨.unknownDirective, line⟩
  else .error ⟨.unknownDirective, line⟩

/-- A fully parsed directive: its opening line, kind, binding names,
source-list names (empty for `SUB`) and literal body text. -/
structure Directive where
  line : Nat
  kind : DirKind
  bindings : List Str
  sources : List Str
  body : Str
  deriving DecidableEq

/-- One span of the parsed template: literal text or a directive region. -/
inductive Span where
  | lit (text : Str)
  | dir (d : Directive)
  deriving DecidableEq

/-- An open directive whose body is still being collected. -/
structure DirOpen where
  line : Nat
  kind : DirKind
  bindings : List Str
  sources : List Str
  deriving DecidableEq

/-- Parser state: outside any directive, or inside one collecting its body. -/
inductive PState where
  | outside
  | inside (info : DirOpen) (body : Str)
  deriving DecidableEq

/-- Modelled from the spec: the line-oriented directive parser.  Markers are
matched in document order; an opening marker with no matching `END` before
end-of-file is `UnterminatedDirective` (located at the opening line);
directives do not nest, so non-`END` lines inside a body are body text. -/
def parseAux : List Str → Nat → PState → List Span → Except Err (List Span)
  | [], _, .outside, acc => .ok acc.reverse
  | [], _, .inside info _, _ => .error ⟨.unterminatedDirective, info.line⟩
  | l :: ls, n, .outside, acc =>
    match findMarker l with
    | none => parseAux ls (n + 1) .outside (.lit l :: acc)
    | some t =>
      match parseHeader t n with
      | .error e => .error e
      | .ok .endH => .error ⟨.unknownDirective, n⟩
      | .ok (.subH name) => parseAux ls (n + 1) (.inside ⟨n, .sub, [name], []⟩ []) acc
      | .ok (.reduceH bs ss) => parseAux ls (n + 1) (.inside ⟨n, .reduce, bs, ss⟩ []) acc
  | l :: ls, n, .inside info b, acc =>
    match findMarker l with
    | none => parseAux ls (n + 1) (.inside info (b ++ l)) acc
    | some t =>
      match parseHeader t n with
      | .ok .endH =>
        parseAux ls (n + 1) .outside
          (.dir ⟨info.line, info.kind, info.bindings, info.sources, b⟩ :: acc)
      | _ => parseAux ls (n + 1) (.inside info (b ++ l)) acc

/-- Parse a template, given as its list of lines, into spans. -/
def parseTemplate (lines : List Str) : Except Err (List Span) :=
  parseAux lines 1 .outside []

/- ### Expander (modelled from the spec) -/

/-- A segment of a directive body: literal text, an inline placeholder
delimited by the `$` sentinel on both sides, or a reduction-expression
wrapper delimited by the paired form with round brackets. -/
inductive Seg where
  | text (s : Str)
  | ph (name : Str)
  | wrap (inner : Str)
  deriving DecidableEq

/-- Whether a segment is the reduction-expression wrapper. -/
def isWrapSeg : Seg → Bool
  | .wrap _ => true
  | _ => false

/-- Whether a segment is literal text. -/
def isTextSeg : Seg → Bool
  | .text _ => true
  | _ => false

/-- Scanner state for body segmentation: inside literal text, inside a
plain placeholder, or inside a reduction-expression wrapper; each carries
the characters read so far, reversed. -/
inductive SMode where
  | litM (acc : Str)
  | phM (acc : Str)
  | wrapM (acc : Str)

/-- Flush the scanner state at end of body: an unterminated placeholder or
wrapper is kept as literal text. -/
def segFlush : SMode → List Seg
  | .litM acc => if acc = [] then [] else [.text acc.reverse]
  | .phM acc => [.text ('$' :: acc.reverse)]
  | .wrapM acc => [.text ('$' :: '(' :: acc.reverse)]

/-- Emit the pending literal text, if any. -/
def segEmit (acc : Str) : List Seg :=
  if acc = [] then [] else [.text acc.reverse]

/-- Modelled from the spec: segment a directive body into literal text,
`$name$` placeholders and reduction-expression wrappers. -/
def segAux : Str → SMode → List Seg
  | [], m => segFlush m
  | '$' :: '(' :: cs, .litM acc => segEmit acc ++ segAux cs (.wrapM [])
  | '$' :: cs, .litM acc => segEmit acc ++ segAux cs (.phM [])
  | c :: cs, .litM acc => segAux cs (.litM (c :: acc))
  | '$' :: cs, .phM acc => .ph acc.reverse :: segAux cs (.litM [])
  | c :: cs, .phM acc => segAux cs (.phM (c :: acc))
  | ')' :: '$' :: cs, .wrapM acc => .wrap acc.reverse :: segAux cs (.litM [])
  | c :: cs, .wrapM acc => segAux cs (.wrapM (c :: acc))

/-- Segment a directive body, starting in literal mode. -/
def segmentBody (s : Str) : List Seg := segAux s (.litM [])

/-- First-match lookup in an iteration-local binding scope. -/
def lookupBind : List (Str × Value) → Str → Option Value
  | [], _ => none
  | (k, v) :: rest, n => if k = n then some v else lookupBind rest n

/-- Modelled from the spec: resolve a placeholder name against the
innermost scope first, falling back to the Symbol Table; a name found
nowhere is `UnresolvedPlaceholder`, a list entry where a scalar is needed
is `TypeMismatch`. -/
def resolvePH (st : SymTab) (sc : List (Str × Value)) (line : Nat) (name : Str) :
    Except Err Value :=
  match lookupBind sc name with
  | some v => .ok v
  | none =>
    match lookupSym st name with
    | some (.scalar v) => .ok v
    | some (.list _) => .error ⟨.typeMismatch, line⟩
    | none => .error ⟨.unresolvedPlaceholder, line⟩

/-- Error-propagating map over a list: stops at the first failure. -/
def mapExcept (f : α → Except Err β) : List α → Except Err (List β)
  | [] => .ok []
  | a :: as =>
    match f a with
    | .error e => .error e
    | .ok b =>
      match mapExcept f as with
      | .error e => .error e
      | .ok bs => .ok (b :: bs)

/-- Modelled from the spec: render the body of a `SUB` directive.  Only the
single declared binding is available; a placeholder naming anything else is
a fatal `UnresolvedPlaceholder` at the directive's location. -/
def renderSubSegs (line : Nat) (name : Str) (v : Value) : List Seg → Except Err Str
  | [] => .ok []
  | .text t :: rest =>
    match renderSubSegs line name v rest with
    | .error e => .error e
    | .ok r => .ok (t ++ r)
  | .ph p :: rest =>
    if p = name then
      match renderSubSegs line name v rest with
      | .error e => .error e
      | .ok r => .ok (renderValue v ++ r)
    else .error ⟨.unresolvedPlaceholder, line⟩
  | .wrap _ :: _ => .error ⟨.unresolvedPlaceholder, line⟩

/-- Modelled from the spec: expand a `SUB` directive: look the declared
binding up in the Symbol Table as a scalar (absent is `UndefinedSymbol`, a
list is `TypeMismatch`), then substitute it through the body. -/
def expandSub (st : SymTab) (d : Directive) : Except Err Str :=
  match d.bindings with
  | [name] =>
    match lookupSym st name with
    | some (.scalar v) => renderSubSegs d.line name v (segmentBody d.body)
    | some (.list _) => .error ⟨.typeMismatch, d.line⟩
    | none => .error ⟨.undefinedSymbol, d.line⟩
  | _ => .error ⟨.arityMismatch, d.line⟩

/-- Modelled from the spec: resolve one source-list name to its ordered
sequence (absent is `UndefinedSymbol`, a scalar is `TypeMismatch`). -/
def resolveList (st : SymTab) (line : Nat) (n : Str) : Except Err (List Value) :=
  match lookupSym st n with
  | some (.list vs) => .ok vs
  | some (.scalar _) => .error ⟨.typeMismatch, line⟩
  | none => .error ⟨.undefinedSymbol, line⟩

/-- Modelled from the spec: all resolved source lists must share one length
`N`; otherwise the expansion-time form of `ArityMismatch`. -/
def checkLengths (line : Nat) : List (List Value) → Except Err Nat
  | [] => .ok 0
  | vs :: rest =>
    if rest.all (fun l => l.length = vs.length) then .ok vs.length
    else .error ⟨.arityMismatch, line⟩

/-- The iteration-`k` binding scope of a `REDUCE`: `bindings[i]` maps to
element `k` of the `i`-th resolved source list. -/
def scopeAt (bs : List Str) (cols : List (List Value)) (k : Nat) : List (Str × Value) :=
  bs.zip (cols.map (fun l => l.getD k (Value.int 0)))

/-- Render the segments of one iteration instance against its scope (with
Symbol Table fallback).  A nested wrapper is not supported and is rejected. -/
def renderSegs (st : SymTab) (sc : List (Str × Value)) (line : Nat) :
    List Seg → Except Err Str
  | [] => .ok []
  | .text t :: rest =>
    match renderSegs st sc line rest with
    | .error e => .error e
    | .ok r => .ok (t ++ r)
  | .ph p :: rest =>
    match resolvePH st sc line p with
    | .error e => .error e
    | .ok v =>
      match renderSegs st sc line rest with
      | .error e => .error e
      | .ok r => .ok (renderValue v ++ r)
  | .wrap _ :: _ => .error ⟨.unresolvedPlaceholder, line⟩

/-- Join text fragments with a separator between consecutive fragments. -/
def joinWith (sep : Str) : List Str → Str
  | [] => []
  | [x] => x
  | x :: y :: xs => x ++ sep ++ joinWith sep (y :: xs)

/-- The separator inserted by the reduction-expression join: the declared
binary operator surrounded by single spaces. -/
def sepOf (op : Str) : Str := ' ' :: (op ++ [' '])

/-- Modelled from the spec: render a body in reduction-expression form.
Literal text is kept once; a placeholder outside the wrapper resolves
against the Symbol Table alone; each wrapper folds its `N` per-iteration
instances into one parenthesised, operator-joined expression substituted at
that single location. -/
def renderWrapped (op : Str) (st : SymTab) (bs : List Str) (cols : List (List Value))
    (n : Nat) (line : Nat) : List Seg → Except Err Str
  | [] => .ok []
  | .text t :: rest =>
    match renderWrapped op st bs cols n line rest with
    | .error e => .error e
    | .ok r => .ok (t ++ r)
  | .ph p :: rest =>
    match resolvePH st [] line p with
    | .error e => .error e
    | .ok v =>
      match renderWrapped op st bs cols n line rest with
      | .error e => .error e
      | .ok r => .ok (renderValue v ++ r)
  | .wrap inner :: rest =>
    match mapExcept (fun k => renderSegs st (scopeAt bs cols k) line (segmentBody inner))
        (List.range n) with
    | .error e => .error e
    | .ok insts =>
      match renderWrapped op st bs cols n line rest with
      | .error e => .error e
      | .ok r => .ok ('(' :: (joinWith (sepOf op) insts ++ ')' :: r))

/-- Modelled from the spec: expand a `REDUCE` directive.  Source lists are
resolved and length-checked; a body containing a reduction-expression
wrapper is emitted once with each wrapper operator-joined, otherwise the
whole body is instantiated once per iteration and the instances are
concatenated in order. -/
def expandReduce (op : Str) (st : SymTab) (d : Directive) : Except Err Str :=
  match mapExcept (resolveList st d.line) d.sources with
  | .error e => .error e
  | .ok cols =>
    match checkLengths d.line cols with
    | .error e => .error e
    | .ok n =>
      if (segmentBody d.body).any isWrapSeg then
        renderWrapped op st d.bindings cols n d.line (segmentBody d.body)
      else
        match mapExcept
            (fun k => renderSegs st (scopeAt d.bindings cols k) d.line (segmentBody d.body))
            (List.range n) with
        | .error e => .error e
        | .ok insts => .ok (concatAll insts)

/-- Expand one directive according to its kind. -/
def expandDir (op : Str) (st : SymTab) (d : Directive) : Except Err Str :=
  match d.kind with
  | .sub => expandSub st d
  | .reduce => expandReduce op st d

/- ### Emitter and whole-run interface (modelled from the spec) -/

/-- Replacement text for one span: literal spans verbatim, directive spans
through the Expander. -/
def expandSpan (op : Str) (st : SymTab) : Span → Except Err Str
  | .lit t => .ok t
  | .dir d => expandDir op st d

/-- Modelled from the spec: the Emitter walks the spans in order and
concatenates their texts, aborting at the first error. -/
def expandSpans (op : Str) (st : SymTab) : List Span → Except Err Str
  | [] => .ok []
  | sp :: rest =>
    match expandSpan op st sp with
    | .error e => .error e
    | .ok h =>
      match expandSpans op st rest with
      | .error e => .error e
      | .ok t => .ok (h ++ t)

/-- Modelled from the spec: one generation run over a template given as
lines: parse, then expand; the result is the complete generated text or the
first structured failure. -/
def run (op : Str) (lines : List Str) (st : SymTab) : Except Err Str :=
  match parseTemplate lines with
  | .error e => .error e
  | .ok spans => expandSpans op st spans

/-- One generation run over raw template text. -/
def runText (op : Str) (s : Str) (st : SymTab) : Except Err Str :=
  run op (splitLines s) st

/-- The declared join operator observed in the sources (summation). -/
def plusOp : Str := ['+']

/- ### The generated `balance_charge` function (from
`src/jaff/templates/generator/microphysics/actual_network_data.cpp`) -/

/-- The solver state `burn_t` is declared by the external Microphysics
library, not in the visible sources: it is modelled abstractly as the
species abundance array `xn` together with all remaining fields bundled
into `rest` of an arbitrary type.  Numeric values are modelled as `ℚ` in
place of `double`, which is faithful for the frame properties studied here
(they concern which locations change, not rounding). -/
structure burn_t (α : Type) where
  xn : Nat → ℚ
  rest : α

/-- The charge-balance sum generated by the `REDUCE` directive of the
template: the operator-joined expression
`(c_0*state.xn[i_0] + ... + c_m*state.xn[i_m])`, evaluated left to right
over the original state. -/
def charge_sum (charges : List ℚ) (idxs : List Nat) (xn : Nat → ℚ) : ℚ :=
  (charges.zip idxs).foldl (fun acc ci => acc + ci.1 * xn ci.2) 0

/-- The function `balance_charge` as generated from the template: its body performs the
single assignment `state.xn[e_idx] = (sum of charge*state.xn[index]);` and
touches nothing else.  `e_idx`, the charge list and the index list are the
symbol-table values spliced in by the generator. -/
def balance_charge (e_idx : Nat) (charges : List ℚ) (idxs : List Nat)
    (state : burn_t α) : burn_t α :=
  { xn := fun j => if j = e_idx then charge_sum charges idxs state.xn else state.xn j,
    rest := state.rest }

/- ### The test harness `main` (from
`src/jaff/templates/kokkos_ode/test_chemistry.cpp`) -/

/-- Outcomes of the four boolean checks that `main` performs on the solver
results: Test 1's finiteness check, Test 2's relative-change-below-10%
check, and Test 3's positivity and reasonableness checks.  The
floating-point solver runs themselves are abstracted into these outcomes;
the control flow below them is embedded faithfully. -/
structure TestFlags where
  t1_all_finite : Bool
  t2_conserved : Bool
  t3_all_positive : Bool
  t3_all_reasonable : Bool

/-- The control flow of `main` in `test_chemistry.cpp` downstream of the
solver calls: `test_result` starts at `0`; Test 1 sets it to `1` exactly
when some concentration is not finite; Tests 2 and 3 only print PASS or
WARNING lines and never touch `test_result`; `main` returns `test_result`.
The returned pair is (printed check/summary lines, exit status). -/
def test_chemistry_main (f : TestFlags) : List String × Int :=
  let test_result : Int := 0
  let test_result := if f.t1_all_finite then test_result else 1
  let log1 :=
    if f.t1_all_finite then ["  PASS: All species concentrations are finite"] else []
  let log2 :=
    if f.t2_conserved then ["  PASS: Mass approximately conserved"]
    else ["  WARNING: Large change in total mass (may be expected for some networks)"]
  let log3 :=
    if f.t3_all_positive then ["  PASS: All species concentrations are non-negative"]
    else ["  WARNING: Some species have negative concentrations (may need solver tuning)"]
  let log4 :=
    if f.t3_all_reasonable then
      ["  PASS: All species concentrations are reasonable after 1 year"] else []
  let summary :=
    if test_result = 0 then ["All tests completed successfully!"]
    else ["Some tests failed. Check output above."]
  (log1 ++ log2 ++ log3 ++ log4 ++ summary, test_result)

/- ### Helper lemmas -/

theorem concatAll_append (a b : List Str) :
    concatAll (a ++ b) = concatAll a ++ concatAll b := by
  induction a with
  | nil => simp [concatAll]
  | cons x xs ih => simp [concatAll, ih]

theorem concatAll_splitLinesAux (s : Str) :
    ∀ acc : Str, concatAll (splitLinesAux s acc) = acc.reverse ++ s := by
  induction s with
  | nil =>
    intro acc
    by_cases h : acc = [] <;> simp [splitLinesAux, h, concatAll]
  | cons c cs ih =>
    intro acc
    by_cases h : c = '\n'
    · subst h
      simp [splitLinesAux, concatAll, ih]
    · simp [splitLinesAux, h, ih]

theorem concatAll_splitLines (s : Str) : concatAll (splitLines s) = s := by
  simpa using concatAll_splitLinesAux s []

theorem parseAux_noMarker (ls : List Str) :
    ∀ (n : Nat) (acc : List Span), (∀ l ∈ ls, findMarker l = none) →
      parseAux ls n .outside acc = .ok (acc.reverse ++ ls.map Span.lit) := by
  induction ls with
  | nil => intro n acc _; simp [parseAux]
  | cons l ls ih =>
    intro n acc h
    have hl : findMarker l = none := h l (by simp)
    rw [parseAux, hl, ih (n + 1) (.lit l :: acc) (fun x hx => h x (by simp [hx]))]
    simp

theorem expandSpans_lits (op : Str) (st : SymTab) (ls : List Str) :
    expandSpans op st (ls.map Span.lit) = .ok (concatAll ls) := by
  induction ls with
  | nil => simp [expandSpans, concatAll]
  | cons x xs ih => simp [expandSpans, expandSpan, concatAll, ih]

theorem mapExcept_ok_fun {α β : Type} (f : α → Except Err β) (g : α → β) (l : List α)
    (h : ∀ a ∈ l, f a = .ok (g a)) : mapExcept f l = .ok (l.map g) := by
  induction l with
  | nil => simp [mapExcept]
  | cons a as ih =>
    rw [mapExcept, h a (by simp), ih (fun x hx => h x (by simp [hx]))]
    simp

theorem checkLengths_err (line : Nat) (cols : List (List Value))
    (h : ∃ l1 ∈ cols, ∃ l2 ∈ cols, l1.length ≠ l2.length) :
    checkLengths line cols = .error ⟨.arityMismatch, line⟩ := by
  obtain ⟨l1, hl1, l2, hl2, hne⟩ := h
  cases cols with
  | nil => simp at hl1
  | cons c rest =>
    by_cases hall : rest.all (fun l => l.length = c.length)
    · exfalso
      simp only [List.all_eq_true, decide_eq_true_eq] at hall
      have e1 : l1.length = c.length := by
        rcases List.mem_cons.mp hl1 with h1 | h1
        · rw [h1]
        · exact hall l1 h1
      have e2 : l2.length = c.length := by
        rcases List.mem_cons.mp hl2 with h2 | h2
        · rw [h2]
        · exact hall l2 h2
      exact hne (e1.trans e2.symm)
    · simp [checkLengths, hall]

theorem joinWith_length (sep : Str) (l : List Str) (h : l ≠ []) :
    (joinWith sep l).length = (l.map List.length).sum + (l.length - 1) * sep.length := by
  induction l with
  | nil => exact absurd rfl h
  | cons x xs ih =>
    cases xs with
    | nil => simp [joinWith]
    | cons y ys =>
      have ih2 := ih (by simp)
      simp only [joinWith, List.length_append, List.map_cons, List.sum_cons,
        List.length_cons, Nat.add_sub_cancel, add_mul, one_mul] at ih2 ⊢
      omega

/-- Substitution performed by `SUB` on one body segment: the bound value's
textual representation at the placeholder, literal text elsewhere. -/
def subRender (v : Value) : Seg → Str
  | .text t => t
  | .ph _ => renderValue v
  | .wrap _ => []

theorem renderSubSegs_ok (line : Nat) (name : Str) (v : Value) (segs : List Seg)
    (h : ∀ s ∈ segs, isTextSeg s = true ∨ s = .ph name) :
    renderSubSegs line name v segs = .ok (concatAll (segs.map (subRender v))) := by
  induction segs with
  | nil => simp [renderSubSegs, concatAll]
  | cons s rest ih =>
    have hrest := ih (fun x hx => h x (by simp [hx]))
    rcases h s (by simp) with hs | hs
    · cases s with
      | text t => simp [renderSubSegs, hrest, concatAll, subRender]
      | ph p => simp [isTextSeg] at hs
      | wrap w => simp [isTextSeg] at hs
    · subst hs
      simp [renderSubSegs, hrest, concatAll, subRender]

theorem renderSubSegs_err (line : Nat) (name : Str) (v : Value) (p : Str)
    (hp : p ≠ name) (rest : List Seg) (ts : List Seg)
    (h : ∀ s ∈ ts, isTextSeg s = true ∨ s = .ph name) :
    renderSubSegs line name v (ts ++ Seg.ph p :: rest) =
      .error ⟨.unresolvedPlaceholder, line⟩ := by
  induction ts with
  | nil => simp [renderSubSegs, hp]
  | cons s ts ih =>
    have hrec := ih (fun x hx => h x (by simp [hx]))
    rcases h s (by simp) with hs | hs
    · cases s with
      | text t => simp [renderSubSegs, hrec]
      | ph q => simp [isTextSeg] at hs
      | wrap w => simp [isTextSeg] at hs
    · subst hs
      simp [renderSubSegs, hrec]

/- ### Concrete scenarios from the spec's testable properties -/

/-- Scenario A symbol table: `e_idx` bound to the scalar `3`. -/
def scenATab : SymTab := [("e_idx".data, .scalar (.int 3))]

/-- Scenario A template: a `SUB e_idx` region around one body line. -/
def scenATemplate : Str := "$JAFF SUB e_idx\nconst int e_idx = $e_idx$;\n$JAFF END".data

/-- Scenario B symbol table: `list` bound to `[1, 4, 7]`. -/
def scenBTab : SymTab := [("list".data, .list [.int 1, .int 4, .int 7])]

/-- Scenario B template: `REDUCE idx IN list` around one body line. -/
def scenBTemplate : Str := "$JAFF REDUCE idx IN list\nx[$idx$] = 0;\n$JAFF END".data

/-- The directive that scenario B's template parses to. -/
def scenBDir : Directive :=
  ⟨1, .reduce, ["idx".data], ["list".data], "x[$idx$] = 0;\n".data⟩

/-- The three per-iteration instances of scenario B. -/
def scenBInst : Nat → Str
  | 0 => "x[1] = 0;\n".data
  | 1 => "x[4] = 0;\n".data
  | _ => "x[7] = 0;\n".data

/-- Scenario C symbol table: `charges = [-1, 1]`, `idxs = [2, 5]`. -/
def scenCTab : SymTab :=
  [("charges".data, .list [.int (-1), .int 1]), ("idxs".data, .list [.int 2, .int 5])]

/-- Scenario C directive: `REDUCE charge, idx IN charges, idxs` with the
reduction-expression body. -/
def scenCDir : Directive :=
  ⟨1, .reduce, ["charge".data, "idx".data], ["charges".data, "idxs".data],
    "$($charge$*state.xn[$idx$])$".data⟩

/-- The two per-iteration instances of scenario C. -/
def scenCInst : Nat → Str
  | 0 => "-1*state.xn[2]".data
  | _ => "1*state.xn[5]".data

/-- Scenario D symbol table: `rho` is present, to show the absence of
symbol-table fallback inside a `SUB` body. -/
def scenDTab : SymTab :=
  [("e_idx".data, .scalar (.int 3)), ("rho".data, .scalar (.int 5))]

/-- Scenario D template: the `SUB e_idx` body references the unbound `rho`. -/
def scenDTemplate : Str := "$JAFF SUB e_idx\nr = $rho$;\n$JAFF END".data

/-- A mismatched-length variant of scenario C's symbol table. -/
def scenETab : SymTab :=
  [("charges".data, .list [.int (-1)]), ("idxs".data, .list [.int 2, .int 5])]

/-- A `SUB` directive with no binding, used to exhibit a failing span. -/
def badSubDir : Directive := ⟨1, .sub, [], [], []⟩

/- ### Claim theorems -/

/-- C5: for every template containing no directive regions, the engine's
output equals the input text exactly; consequently re-running the engine on
its own generated output, which contains no remaining sentinels, is a
no-op. -/
theorem c5_identity_no_directives :
    (∀ (op s : Str) (st : SymTab),
      (∀ l ∈ splitLines s, findMarker l = none) →
      runText op s st = .ok s) ∧
    (∀ (op s out : Str) (st st2 : SymTab),
      runText op s st = .ok out →
      (∀ l ∈ splitLines out, findMarker l = none) →
      runText op out st2 = .ok out) := by
  have main : ∀ (op s : Str) (st : SymTab),
      (∀ l ∈ splitLines s, findMarker l = none) → runText op s st = .ok s := by
    intro op s st h
    rw [runText, run, parseTemplate, parseAux_noMarker (splitLines s) 1 [] h]
    simp [expandSpans_lits, concatAll_splitLines]
  exact ⟨main, fun op s out st st2 _ h => main op out st2 h⟩

/-- C5 witness: a sentinel-free two-line text is reproduced verbatim. -/
theorem c5_witness :
    (∀ l ∈ splitLines "hello\nworld\n".data, findMarker l = none) ∧
    runText plusOp "hello\nworld\n".data [] = .ok "hello\nworld\n".data :=
  ⟨by decide, c5_identity_no_directives.1 plusOp "hello\nworld\n".data [] (by decide)⟩

/-- C8: expansion is deterministic: two runs on the same template text and
the same Symbol Table produce byte-identical output; the output depends on
no other state. -/
theorem c8_deterministic :
    ∀ (op t1 t2 : Str) (st1 st2 : SymTab),
      t1 = t2 → st1 = st2 → runText op t1 st1 = runText op t2 st2 := by
  intro op t1 t2 st1 st2 h1 h2
  rw [h1, h2]

/-- C8 witness: the determinism theorem applied to scenario A's inputs. -/
theorem c8_witness :
    runText plusOp scenATemplate scenATab = runText plusOp scenATemplate scenATab :=
  c8_deterministic plusOp scenATemplate scenATemplate scenATab scenATab rfl rfl

/-- C7: a run yields either the complete generated text or a structured
failure (whose kind is one of the six error kinds and which carries a
template line); the emitter aborts at the first failing span, so no partial
output is ever produced. -/
theorem c7_first_error_aborts_run :
    (∀ (op : Str) (lines : List Str) (st : SymTab),
      (∃ out, run op lines st = .ok out) ∨ (∃ e, run op lines st = .error e)) ∧
    (∀ (op : Str) (lines : List Str) (st : SymTab) (e : Err),
      run op lines st = .error e →
      e.kind = .unterminatedDirective ∨ e.kind = .unknownDirective ∨
        e.kind = .arityMismatch ∨ e.kind = .undefinedSymbol ∨
        e.kind = .unresolvedPlaceholder ∨ e.kind = .typeMismatch) ∧
    (∀ (op : Str) (st : SymTab) (pre : List Span) (sp : Span) (post : List Span)
        (outPre : Str) (e : Err),
      expandSpans op st pre = .ok outPre →
      expandSpan op st sp = .error e →
      expandSpans op st (pre ++ sp :: post) = .error e) := by
  refine ⟨?_, ?_, ?_⟩
  · intro op lines st
    cases h : run op lines st with
    | ok out => exact .inl ⟨out, rfl⟩
    | error e => exact .inr ⟨e, rfl⟩
  · intro op lines st e _
    cases hk : e.kind <;> simp
  · intro op st pre
    induction pre with
    | nil =>
      intro sp post outPre e _ h2
      simp [expandSpans, h2]
    | cons x xs ih =>
      intro sp post outPre e h1 h2
      cases hx : expandSpan op st x with
      | error e2 => rw [expandSpans, hx] at h1; exact absurd h1 (by simp)
      | ok hxv =>
        cases ht : expandSpans op st xs with
        | error e2 => rw [expandSpans, hx, ht] at h1; exact absurd h1 (by simp)
        | ok tv =>
          have := ih sp post tv e ht h2
          rw [List.cons_append, expandSpans, hx, this]

/-- C7 witness: the first-error law applied to a failing directive span,
and the kind enumeration applied to a concrete failing run. -/
theorem c7_witness :
    expandSpans plusOp [] ([] ++ Span.dir badSubDir :: []) =
        .error ⟨.arityMismatch, 1⟩ ∧
    ((⟨.arityMismatch, 1⟩ : Err).kind = .unterminatedDirective ∨
      (⟨.arityMismatch, 1⟩ : Err).kind = .unknownDirective ∨
      (⟨.arityMismatch, 1⟩ : Err).kind = .arityMismatch ∨
      (⟨.arityMismatch, 1⟩ : Err).kind = .undefinedSymbol ∨
      (⟨.arityMismatch, 1⟩ : Err).kind = .unresolvedPlaceholder ∨
      (⟨.arityMismatch, 1⟩ : Err).kind = .typeMismatch) :=
  ⟨c7_first_error_aborts_run.2.2 plusOp [] [] (Span.dir badSubDir) [] []
      ⟨.arityMismatch, 1⟩ rfl rfl,
    c7_first_error_aborts_run.2.1 plusOp ["$JAFF REDUCE a, b IN xs".data] []
      ⟨.arityMismatch, 1⟩ rfl⟩

/-- C2: a `REDUCE` in per-line join form over source lists of common length
`N` expands to exactly `N` instances, one per iteration, each the body
rendered against the iteration-local scope, concatenated in order; in
particular scenario B yields the three lines `x[1] = 0;`, `x[4] = 0;`,
`x[7] = 0;`. -/
theorem c2_reduce_per_line_form :
    (∀ (op : Str) (st : SymTab) (d : Directive) (cols : List (List Value)) (n : Nat)
        (instf : Nat → Str),
      d.kind = .reduce →
      mapExcept (resolveList st d.line) d.sources = .ok cols →
      checkLengths d.line cols = .ok n →
      (segmentBody d.body).any isWrapSeg = false →
      (∀ k, k < n →
        renderSegs st (scopeAt d.bindings cols k) d.line (segmentBody d.body) =
          .ok (instf k)) →
      expandDir op st d = .ok (concatAll ((List.range n).map instf)) ∧
        ((List.range n).map instf).length = n) ∧
    runText plusOp scenBTemplate scenBTab =
      .ok "x[1] = 0;\nx[4] = 0;\nx[7] = 0;\n".data := by
  constructor
  · intro op st d cols n instf hkind hcols hn hnowrap hinst
    have hmap : mapExcept
        (fun k => renderSegs st (scopeAt d.bindings cols k) d.line (segmentBody d.body))
        (List.range n) = .ok ((List.range n).map instf) :=
      mapExcept_ok_fun _ instf _ (fun k hk => hinst k (List.mem_range.mp hk))
    refine ⟨?_, by simp⟩
    simp [expandDir, hkind, expandReduce, hcols, hn, hnowrap, hmap]
  · rfl

/-- C2 witness: the per-line law applied to scenario B's directive. -/
theorem c2_witness :
    expandDir plusOp scenBTab scenBDir =
        .ok (concatAll ((List.range 3).map scenBInst)) ∧
      ((List.range 3).map scenBInst).length = 3 :=
  c2_reduce_per_line_form.1 plusOp scenBTab scenBDir [[.int 1, .int 4, .int 7]] 3
    scenBInst rfl rfl rfl rfl
    (by intro k hk; interval_cases k <;> rfl)

/-- C3: a `SUB` whose binding is bound to a scalar expands to the body with
every placeholder equal to the binding replaced by the scalar's textual
representation, markers removed; in particular scenario A's template with
`e_idx = 3` expands to exactly `const int e_idx = 3;` followed by a
newline. -/
theorem c3_sub_substitution :
    (∀ (op : Str) (st : SymTab) (d : Directive) (name : Str) (v : Value),
      d.kind = .sub →
      d.bindings = [name] →
      lookupSym st name = some (.scalar v) →
      (∀ s ∈ segmentBody d.body, isTextSeg s = true ∨ s = .ph name) →
      expandDir op st d =
        .ok (concatAll ((segmentBody d.body).map (subRender v)))) ∧
    runText plusOp scenATemplate scenATab = .ok "const int e_idx = 3;\n".data := by
  constructor
  · intro op st d name v hkind hbind hlook hsegs
    simp [expandDir, hkind, expandSub, hbind, hlook,
      renderSubSegs_ok d.line name v _ hsegs]
  · rfl

/-- C3 witness: the substitution law applied to scenario A's directive. -/
theorem c3_witness :
    expandDir plusOp scenATab
        ⟨1, .sub, ["e_idx".data], [], "const int e_idx = $e_idx$;\n".data⟩ =
      .ok (concatAll
        ((segmentBody "const int e_idx = $e_idx$;\n".data).map
          (subRender (.int 3)))) :=
  c3_sub_substitution.1 plusOp scenATab
    ⟨1, .sub, ["e_idx".data], [], "const int e_idx = $e_idx$;\n".data⟩
    "e_idx".data (.int 3) rfl rfl rfl (by decide)

/-- C6: a placeholder inside a `SUB` body naming anything but the declared
binding is a fatal `UnresolvedPlaceholder` carrying the directive's
location, with no fallback to the Symbol Table; in particular scenario D's
run fails with `UnresolvedPlaceholder` at the directive's line even though
the referenced name is in the table. -/
theorem c6_sub_unresolved_placeholder :
    (∀ (op : Str) (st : SymTab) (d : Directive) (name : Str) (v : Value)
        (ts : List Seg) (p : Str) (rest : List Seg),
      d.kind = .sub →
      d.bindings = [name] →
      lookupSym st name = some (.scalar v) →
      segmentBody d.body = ts ++ Seg.ph p :: rest →
      p ≠ name →
      (∀ s ∈ ts, isTextSeg s = true ∨ s = .ph name) →
      expandDir op st d = .error ⟨.unresolvedPlaceholder, d.line⟩) ∧
    runText plusOp scenDTemplate scenDTab = .error ⟨.unresolvedPlaceholder, 1⟩ := by
  constructor
  · intro op st d name v ts p rest hkind hbind hlook hseg hp hts
    simp only [expandDir, hkind, expandSub, hbind, hlook, hseg]
    exact renderSubSegs_err d.line name v p hp rest ts hts
  · rfl

/-- C6 witness: the law applied to scenario D's directive, whose stray
placeholder `rho` is even present in the Symbol Table. -/
theorem c6_witness :
    expandDir plusOp scenDTab ⟨1, .sub, ["e_idx".data], [], "r = $rho$;\n".data⟩ =
      .error ⟨.unresolvedPlaceholder, 1⟩ :=
  c6_sub_unresolved_placeholder.1 plusOp scenDTab
    ⟨1, .sub, ["e_idx".data], [], "r = $rho$;\n".data⟩
    "e_idx".data (.int 3) [.text "r = ".data] "rho".data [.text ";\n".data]
    rfl rfl rfl rfl (by decide) (by decide)

/-- C1: a `REDUCE` whose body placeholder uses the reduction-expression
wrapping over source lists of common length `N ≥ 1` expands to exactly one
parenthesised operator-joined expression, substituted at the wrapper's
single location, built from the `N` per-iteration instances with the
declared operator inserted `N - 1` times (witnessed by the output length
accounting); in particular scenario C yields exactly
`(-1*state.xn[2] + 1*state.xn[5])` with one occurrence of the join. -/
theorem c1_reduce_expression_form :
    (∀ (op : Str) (st : SymTab) (d : Directive) (cols : List (List Value)) (n : Nat)
        (inner : Str) (instf : Nat → Str),
      d.kind = .reduce →
      mapExcept (resolveList st d.line) d.sources = .ok cols →
      checkLengths d.line cols = .ok n →
      1 ≤ n →
      segmentBody d.body = [Seg.wrap inner] →
      (∀ k, k < n →
        renderSegs st (scopeAt d.bindings cols k) d.line (segmentBody inner) =
          .ok (instf k)) →
      expandDir op st d =
          .ok ('(' :: (joinWith (sepOf op) ((List.range n).map instf) ++ [')'])) ∧
        ((List.range n).map instf).length = n ∧
        (joinWith (sepOf op) ((List.range n).map instf)).length =
          (((List.range n).map instf).map List.length).sum +
            (n - 1) * (sepOf op).length) ∧
    (expandDir plusOp scenCTab scenCDir = .ok "(-1*state.xn[2] + 1*state.xn[5])".data ∧
      countOcc (sepOf plusOp) "(-1*state.xn[2] + 1*state.xn[5])".data = 1) := by
  constructor
  · intro op st d cols n inner instf hkind hcols hn hpos hseg hinst
    have hmap : mapExcept
        (fun k => renderSegs st (scopeAt d.bindings cols k) d.line (segmentBody inner))
        (List.range n) = .ok ((List.range n).map instf) :=
      mapExcept_ok_fun _ instf _ (fun k hk => hinst k (List.mem_range.mp hk))
    have hany : (segmentBody d.body).any isWrapSeg = true := by
      rw [hseg]; rfl
    have hne : (List.range n).map instf ≠ [] := by
      simp only [ne_eq, List.map_eq_nil_iff, List.range_eq_nil]
      omega
    refine ⟨?_, by simp, ?_⟩
    · simp [expandDir, hkind, expandReduce, hcols, hn, hseg, renderWrapped, hmap,
        isWrapSeg]
    · rw [joinWith_length _ _ hne]
      simp
  · exact ⟨rfl, by decide⟩

/-- C1 witness: the reduction-expression law applied to scenario C. -/
theorem c1_witness :
    expandDir plusOp scenCTab scenCDir =
        .ok ('(' :: (joinWith (sepOf plusOp) ((List.range 2).map scenCInst) ++ [')'])) ∧
      ((List.range 2).map scenCInst).length = 2 ∧
      (joinWith (sepOf plusOp) ((List.range 2).map scenCInst)).length =
        (((List.range 2).map scenCInst).map List.length).sum +
          (2 - 1) * (sepOf plusOp).length :=
  c1_reduce_expression_form.1 plusOp scenCTab scenCDir
    [[.int (-1), .int 1], [.int 2, .int 5]] 2
    "$charge$*state.xn[$idx$]".data scenCInst rfl rfl rfl (by decide) rfl
    (by intro k hk; interval_cases k <;> rfl)

/-- C4: a binding/source count mismatch in a `REDUCE` header is a fatal
parse-time `ArityMismatch`, and parse errors abort the run for every
Symbol Table (so no table lookup is involved); source lists that resolve to
unequal lengths always make expansion fail with `ArityMismatch` at the
directive's line, never truncating or padding. -/
theorem c4_arity_mismatch :
    (∀ (t : Str) (line : Nat) (p : Str × Str),
      leadsWith reduceSig (trim t) = true →
      splitINAux ((trim t).drop reduceSig.length) = some p →
      (splitComma p.1).length ≠ (splitComma p.2).length →
      parseHeader t line = .error ⟨.arityMismatch, line⟩) ∧
    (∀ (op : Str) (lines : List Str) (st : SymTab) (e : Err),
      parseTemplate lines = .error e → run op lines st = .error e) ∧
    (∀ (op : Str) (st : SymTab) (d : Directive) (cols : List (List Value)),
      d.kind = .reduce →
      mapExcept (resolveList st d.line) d.sources = .ok cols →
      (∃ l1 ∈ cols, ∃ l2 ∈ cols, l1.length ≠ l2.length) →
      expandDir op st d = .error ⟨.arityMismatch, d.line⟩) := by
  refine ⟨?_, ?_, ?_⟩
  · intro t line p hred hsplit hne
    cases htr : trim t with
    | nil => rw [htr] at hred; exact absurd hred (by decide)
    | cons c cs =>
      rw [htr] at hred hsplit
      have hc : c = 'R' := by
        rw [show reduceSig = 'R' :: ['E', 'D', 'U', 'C', 'E', ' '] from rfl,
          leadsWith] at hred
        have := (Bool.and_eq_true _ _).mp hred
        exact (beq_iff_eq.mp this.1).symm
      subst hc
      have e1 : ('R' :: cs) ≠ endSig := by
        intro h
        injection h with h1 _
        exact absurd h1 (by decide)
      have e2 : leadsWith subSig ('R' :: cs) = false := rfl
      rw [parseHeader, htr, if_neg e1, e2]
      simp only [Bool.false_eq_true, if_false, hred, if_true, hsplit]
      rw [if_neg hne]
  · intro op lines st e h
    rw [run, h]
  · intro op st d cols hkind hcols hex
    have hchk := checkLengths_err d.line cols hex
    simp [expandDir, hkind, expandReduce, hcols, hchk]

/-- C4 witness: the parse-time law applied to a header with two bindings
and one source list, and the expansion-time law applied to scenario C's
directive over mismatched source lists. -/
theorem c4_witness :
    parseHeader "REDUCE a, b IN xs".data 1 = .error ⟨.arityMismatch, 1⟩ ∧
    expandDir plusOp scenETab scenCDir = .error ⟨.arityMismatch, 1⟩ :=
  ⟨c4_arity_mismatch.1 "REDUCE a, b IN xs".data 1 ("a, b".data, "xs".data)
      rfl rfl (by decide),
    c4_arity_mismatch.2.2 plusOp scenETab scenCDir
      [[.int (-1)], [.int 2, .int 5]] rfl rfl
      ⟨[.int (-1)], by simp, [.int 2, .int 5], by simp, by decide⟩⟩

/-- C9: the only mutation `balance_charge` performs on its `burn_t`
argument is the single assignment to `state.xn[e_idx]`: every other element
of `xn` and every other field of the state is unchanged (and the written
element holds the generated charge sum). -/
theorem c9_balance_charge_frame :
    ∀ (α : Type) (e_idx : Nat) (charges : List ℚ) (idxs : List Nat)
      (s : burn_t α) (j : Nat), j ≠ e_idx →
      (balance_charge e_idx charges idxs s).xn j = s.xn j ∧
      (balance_charge e_idx charges idxs s).rest = s.rest ∧
      (balance_charge e_idx charges idxs s).xn e_idx = charge_sum charges idxs s.xn := by
  intro α e_idx charges idxs s j hj
  refine ⟨?_, rfl, ?_⟩
  · simp [balance_charge, hj]
  · simp [balance_charge]

/-- C9 witness: the frame law at a concrete state and indices. -/
theorem c9_witness :
    (1 : Nat) ≠ 0 ∧
      ((balance_charge 0 [2] [1] (⟨fun _ => 3, (37 : ℚ)⟩ : burn_t ℚ)).xn 1 =
          (⟨fun _ => 3, (37 : ℚ)⟩ : burn_t ℚ).xn 1 ∧
        (balance_charge 0 [2] [1] (⟨fun _ => 3, (37 : ℚ)⟩ : burn_t ℚ)).rest =
          (⟨fun _ => 3, (37 : ℚ)⟩ : burn_t ℚ).rest ∧
        (balance_charge 0 [2] [1] (⟨fun _ => 3, (37 : ℚ)⟩ : burn_t ℚ)).xn 0 =
          charge_sum [2] [1] (⟨fun _ => 3, (37 : ℚ)⟩ : burn_t ℚ).xn) :=
  ⟨by decide,
    c9_balance_charge_frame ℚ 0 [2] [1] (⟨fun _ => 3, (37 : ℚ)⟩ : burn_t ℚ) 1
      (by decide)⟩

/-- C10: the test program's `main` returns a nonzero exit status exactly
when Test 1 finds a non-finite concentration; the Test 2 and Test 3 checks
never modify the returned `test_result`, so `main` returns `0` whenever
every concentration after Test 1 is finite. -/
theorem c10_exit_status :
    (∀ f : TestFlags, (test_chemistry_main f).2 = 0 ↔ f.t1_all_finite = true) ∧
    (∀ f : TestFlags, (test_chemistry_main f).2 ≠ 0 ↔ f.t1_all_finite = false) ∧
    (∀ f f' : TestFlags, f.t1_all_finite = f'.t1_all_finite →
      (test_chemistry_main f).2 = (test_chemistry_main f').2) := by
  refine ⟨?_, ?_, ?_⟩
  · intro f
    rcases f with ⟨t1, t2, t3, t4⟩
    cases t1 <;> simp [test_chemistry_main]
  · intro f
    rcases f with ⟨t1, t2, t3, t4⟩
    cases t1 <;> simp [test_chemistry_main]
  · intro f f' h
    rcases f with ⟨t1, t2, t3, t4⟩
    rcases f' with ⟨t1', t2', t3', t4'⟩
    simp only at h
    subst h
    cases t1 <;> simp [test_chemistry_main]

/-- C10 witness: runs differing only in the Test 2 and Test 3 outcomes
return the same exit status. -/
theorem c10_witness :
    (⟨true, false, true, false⟩ : TestFlags).t1_all_finite =
        (⟨true, true, false, true⟩ : TestFlags).t1_all_finite ∧
      (test_chemistry_main ⟨true, false, true, false⟩).2 =
        (test_chemistry_main ⟨true, true, false, true⟩).2 :=
  ⟨rfl, c10_exit_status.2.2 ⟨true, false, true, false⟩ ⟨true, true, false, true⟩ rfl⟩

end Jaff

